import Mathlib

/-!
Shallow embedding of the competition-assessment and content-length-estimation
engine of `src/src/simple_seo_brief.py`:

* `estimate_content_length` (source lines 545–626)
* `calculate_competition_assessment` (source lines 629–800)

Conventions of the embedding:

* Python floats are modelled as `ℚ` (exact arithmetic; the algorithms only
  add, multiply, divide and compare).
* The network-facing `get_actual_word_count` performs I/O; it is abstracted as
  a parameter `fetch : String → Option Nat` (`none` models a failed fetch,
  `some w` a successful fetch that counted `w` words).
* Python `int()` on a float truncates toward zero (`pyInt`); Python `round(x, 1)`
  rounds half to even at one decimal (`round1`).
* Python `list.sort` is a stable ascending sort; it is modelled with
  `List.insertionSort`, which is stable, and the stability and sortedness are
  proved rather than assumed.
-/

/-- Domain authority metrics as read from the competitor metrics dictionary:
`pos_1` (keywords ranking number one), `etv` (estimated traffic value) and
`keywords` (total ranking keywords); `.get(..., 0)` defaults are already
applied, so every field is present. -/
structure DomainMetrics where
  pos_1 : ℚ
  etv : ℚ
  keywords : ℚ
deriving DecidableEq

/-- One SERP result row.  `result.get("domain")` returns `None` when the key
is missing, hence `domain : Option String`; the rest of the fields use the
defaults the source supplies on access. -/
structure SerpEntry where
  position : Nat
  title : String
  url : String
  domain : Option String
deriving DecidableEq

/-- One element of `detailed_estimates` built by `estimate_content_length`. -/
structure DetailedEstimate where
  position : Nat
  domain : String
  actual_words : Nat
  title : String
  fetched : Bool
deriving DecidableEq

/-- The dictionary returned by `estimate_content_length`. -/
structure ContentLengthProfile where
  average : ℚ
  median : Nat
  min : Nat
  max : Nat
  recommended_min : ℤ
  recommended_max : ℤ
  detailed_estimates : List DetailedEstimate
deriving DecidableEq

/-- One element of `competitor_analysis` built by
`calculate_competition_assessment`. -/
structure CompetitorStrength where
  domain : String
  position : Nat
  pos_1 : ℚ
  etv : ℚ
  keywords : ℚ
  strength_score : ℚ
  difficulty : String
deriving DecidableEq

/-- The dictionary returned by `calculate_competition_assessment`. -/
structure CompetitionAssessment where
  your_metrics : DomainMetrics
  competitor_analysis : List CompetitorStrength
  overall_score : ℚ
  verdict : String
  target_position : String
  recommendations : List String
  content_length_analysis : ContentLengthProfile
deriving DecidableEq

/-- Python `int()` applied to a (here: rational) number: truncation toward
zero. -/
def pyInt (q : ℚ) : ℤ := if 0 ≤ q then ⌊q⌋ else ⌈q⌉

/-- Python `round` to the nearest integer: round half to even. -/
def roundHalfEven (q : ℚ) : ℤ :=
  if q - ⌊q⌋ < 1/2 then ⌊q⌋
  else if 1/2 < q - ⌊q⌋ then ⌊q⌋ + 1
  else if ⌊q⌋ % 2 = 0 then ⌊q⌋ else ⌊q⌋ + 1

/-- Python `round(x, 1)`: round half to even at one decimal place. -/
def round1 (q : ℚ) : ℚ := (roundHalfEven (q * 10) : ℚ) / 10

/-- `title[:60] + "..." if len(title) > 60 else title` from the
`detailed_estimates` construction. -/
def truncTitle (t : String) : String :=
  if 60 < t.length then t.take 60 ++ "..." else t

/-- The word count recorded for one analyzed URL
(source lines 571–579): the fetched count when the fetch succeeded with
strictly more than 100 words (`if actual_words and actual_words > 100`,
where a `0` count is falsy), and the fixed fallback `2000` otherwise. -/
def wordCountFor (fetch : String → Option Nat) (url : String) : Nat :=
  match fetch url with
  | some w => if 100 < w then w else 2000
  | none => 2000

/-- The `word_counts` list of `estimate_content_length`: one sample per entry
of the first four SERP results. -/
def contentWordCounts (fetch : String → Option Nat) (serp : List SerpEntry) :
    List Nat :=
  (serp.take 4).map fun r => wordCountFor fetch r.url

/-- The `detailed_estimates` list of `estimate_content_length`. -/
def detailedEstimatesOf (fetch : String → Option Nat) (serp : List SerpEntry) :
    List DetailedEstimate :=
  (serp.take 4).map fun r =>
    ⟨r.position, r.domain.getD "", wordCountFor fetch r.url,
      truncTitle r.title, (fetch r.url).isSome⟩

/-- The statistics block of `estimate_content_length` (source lines 591–626)
as a function of the collected `word_counts` and `detailed_estimates`: average,
median at index `len // 2` of the sorted list, min, max, and the recommended
band `int(avg * 1.1)`–`int(avg * 1.2)`; hardcoded defaults when the sample
list is empty. -/
def profileFromCounts (wcs : List Nat) (det : List DetailedEstimate) :
    ContentLengthProfile :=
  match wcs with
  | [] => ⟨3000, 3000, 1500, 5000, 3000, 4000, []⟩
  | w :: ws =>
    let avg_words : ℚ := (((w :: ws).sum : ℕ) : ℚ) / (((w :: ws).length : ℕ) : ℚ)
    let sorted_counts := (w :: ws).insertionSort (· ≤ ·)
    ⟨avg_words,
      sorted_counts.getD ((w :: ws).length / 2) 0,
      ws.foldl Nat.min w,
      ws.foldl Nat.max w,
      pyInt (avg_words * (11/10)),
      pyInt (avg_words * (12/10)),
      det⟩

/-- `estimate_content_length(serp_results)` (source lines 545–626): analyze
the first four SERP results, compute average / median / min / max of the four
word-count samples and the recommended band 10–20 percent above average; on an
empty sample list return the hardcoded defaults. -/
def estimate_content_length (fetch : String → Option Nat)
    (serp : List SerpEntry) : ContentLengthProfile :=
  profileFromCounts (contentWordCounts fetch serp) (detailedEstimatesOf fetch serp)

/-- The `pos_1_ratio` of `calculate_competition_assessment`
(source lines 686–691): competitor over own `pos_1` when you have any number-one
rankings, otherwise competitor `pos_1` against a ceiling of 100 (zero when the
competitor has none either). -/
def pos1Norm (your comp : DomainMetrics) : ℚ :=
  if 0 < your.pos_1 then comp.pos_1 / your.pos_1
  else if 0 < comp.pos_1 then comp.pos_1 / 100 else 0

/-- The `etv_ratio` (source lines 693–696): competitor over own `etv`, with a
10000 normalization ceiling when your own `etv` is zero. -/
def etvNorm (your comp : DomainMetrics) : ℚ :=
  if 0 < your.etv then comp.etv / your.etv
  else if 0 < comp.etv then comp.etv / 10000 else 0

/-- The `keywords_ratio` (source lines 698–701): competitor over own
`keywords`, with a 5000 normalization ceiling when your own count is zero. -/
def keywordsNorm (your comp : DomainMetrics) : ℚ :=
  if 0 < your.keywords then comp.keywords / your.keywords
  else if 0 < comp.keywords then comp.keywords / 5000 else 0

/-- The weighted `strength_score` before rounding (source lines 703–710):
`min(100, pos_1_ratio*50 + etv_ratio*30 + keywords_ratio*20)`. -/
def strengthRaw (your comp : DomainMetrics) : ℚ :=
  min 100 (pos1Norm your comp * 50 + etvNorm your comp * 30 +
    keywordsNorm your comp * 20)

/-- The per-competitor difficulty label (source lines 712–720). -/
def difficultyLabel (s : ℚ) : String :=
  if s ≤ 30 then "WEAK - Easy to outrank"
  else if s ≤ 60 then "MEDIUM - Moderate effort needed"
  else if s ≤ 85 then "STRONG - Significant effort required"
  else "DOMINANT - Very difficult to outrank"

/-- The body of the competitor loop (source lines 668–731): `none` when the
SERP entry's domain is missing, empty (falsy) or absent from the metrics
dictionary, otherwise the `CompetitorStrength` row with the score rounded to
one decimal. -/
def competitorFor (your : DomainMetrics) (dict : List (String × DomainMetrics))
    (r : SerpEntry) : Option CompetitorStrength :=
  match r.domain with
  | none => none
  | some d =>
    if d = "" then none
    else
      match dict.lookup d with
      | none => none
      | some m =>
        some ⟨d, r.position, m.pos_1, m.etv, m.keywords,
          round1 (strengthRaw your m), difficultyLabel (strengthRaw your m)⟩

/-- The unsorted `competitor_analysis` list (source lines 665–731). -/
def competitorAnalysisOf (your : DomainMetrics)
    (dict : List (String × DomainMetrics)) (serp : List SerpEntry) :
    List CompetitorStrength :=
  serp.filterMap (competitorFor your dict)

/-- The sort key relation of `competitor_analysis.sort(key=lambda x:
x["strength_score"])` (source line 734). -/
def scoreLe (a b : CompetitorStrength) : Prop :=
  a.strength_score ≤ b.strength_score

instance : DecidableRel scoreLe := fun a b =>
  inferInstanceAs (Decidable (a.strength_score ≤ b.strength_score))

instance : IsTotal CompetitorStrength scoreLe :=
  ⟨fun a b => le_total a.strength_score b.strength_score⟩

instance : IsTrans CompetitorStrength scoreLe :=
  ⟨fun _ _ _ hab hbc => le_trans hab hbc⟩

/-- Python `list.sort` is a stable ascending sort; `List.insertionSort` with
the non-strict key order is stable, which is proved below rather than
assumed. -/
def sortByScore (l : List CompetitorStrength) : List CompetitorStrength :=
  l.insertionSort scoreLe

/-- `top_5 = competitor_analysis[:5] if len(competitor_analysis) >= 5 else
competitor_analysis` (source line 737). -/
def topFive (l : List CompetitorStrength) : List CompetitorStrength :=
  if 5 ≤ l.length then l.take 5 else l

/-- `overall_score = sum(... top_5) / len(top_5) if top_5 else 0`
(source line 738), taken over the already sorted list. -/
def overallScoreOf (l : List CompetitorStrength) : ℚ :=
  if (topFive l).isEmpty then 0
  else ((topFive l).map (fun c => c.strength_score)).sum / ((topFive l).length : ℚ)

/-- The overall verdict and target position strings (source lines 740–751),
paired as (verdict, target_position). -/
def verdictFor (s : ℚ) : String × String :=
  if s ≤ 30 then ("LOW COMPETITION - Excellent opportunity", "1-3")
  else if s ≤ 60 then ("MEDIUM COMPETITION - Good opportunity with quality content", "3-5")
  else if s ≤ 85 then ("HIGH COMPETITION - Requires exceptional content and link building", "5-10")
  else ("VERY HIGH COMPETITION - Long-term strategy needed", "10-20 initially")

/-- The verdict-indexed canned strategy strings (source lines 753–772). -/
def baseRecommendations (s : ℚ) : List String :=
  if s ≤ 30 then
    ["Focus on content quality - competitors are weak",
     "Quick wins possible with on-page optimization",
     "Build topical authority in this niche"]
  else if s ≤ 60 then
    ["Create significantly better content than current top 10",
     "Build high-quality backlinks from relevant sites",
     "Focus on user experience and engagement metrics"]
  else if s ≤ 85 then
    ["Develop comprehensive pillar content",
     "Aggressive link building campaign required",
     "Build brand authority and E-E-A-T signals",
     "Consider targeting easier related keywords first"]
  else
    ["Long-term strategy needed (6-12+ months)",
     "Build domain authority through easier wins first",
     "Focus on long-tail variations initially",
     "Invest heavily in content quality and backlinks"]

/-- The full recommendation list (source lines 753–777): the canned strings
plus, when competitors with score at most 40 exist, one line naming up to
three of them (from the sorted list). -/
def recommendationsOf (s : ℚ) (sorted : List CompetitorStrength) : List String :=
  let easiest := sorted.filter fun c => decide (c.strength_score ≤ 40)
  if easiest.isEmpty then baseRecommendations s
  else
    baseRecommendations s ++
      ["Target to outrank first: " ++
        String.intercalate ", " ((easiest.take 3).map fun c => c.domain)]

/-- `calculate_competition_assessment(your_domain_metrics,
competitor_metrics_dict, serp_results)` (source lines 629–800): estimate the
content length, score every SERP competitor found in the metrics dictionary,
sort ascending by strength score, average the weakest five for the overall
score, and derive verdict, target position and recommendations. -/
def calculate_competition_assessment (fetch : String → Option Nat)
    (your : DomainMetrics) (dict : List (String × DomainMetrics))
    (serp : List SerpEntry) : CompetitionAssessment :=
  let clp := estimate_content_length fetch serp
  let sorted := sortByScore (competitorAnalysisOf your dict serp)
  let overall := overallScoreOf sorted
  ⟨your, sorted, round1 overall, (verdictFor overall).1, (verdictFor overall).2,
    recommendationsOf overall sorted, clp⟩

/-! ### Concrete inputs used by witnesses and counterexamples -/

/-- A fetcher for which every page fetch fails. -/
def fetchNone : String → Option Nat := fun _ => none

def yourC7 : DomainMetrics := ⟨0, 0, 0⟩

def compC7 : DomainMetrics := ⟨50, 20000, 3000⟩

def dictC7 : List (String × DomainMetrics) := [("comp.com", compC7)]

def serpC7 : List SerpEntry := [⟨1, "t", "u", some "comp.com"⟩]

/-- The competitor row produced for `serpC7` against `dictC7`. -/
def csC7 : CompetitorStrength :=
  ⟨"comp.com", 1, 50, 20000, 3000, 97, "DOMINANT - Very difficult to outrank"⟩

/-- Own metrics 100/100/1000: the three ratios are `pos_1/100`, `etv/100` and
`keywords/1000`. -/
def yourBase : DomainMetrics := ⟨100, 100, 1000⟩

/-- Three domains with raw scores 10, 10.1 and 10.3 against `yourBase`: their
mean 30.4/3 has no finite one-decimal representation. -/
def dictCex : List (String × DomainMetrics) :=
  [("a.com", ⟨20, 0, 0⟩), ("b.com", ⟨20, 0, 5⟩), ("c.com", ⟨20, 0, 15⟩)]

def serpCex : List SerpEntry :=
  [⟨1, "ta", "ua", some "a.com"⟩, ⟨2, "tb", "ub", some "b.com"⟩,
   ⟨3, "tc", "uc", some "c.com"⟩]

/-- A single domain with raw score 10 + 1/25 = 10.04 against `yourBase`,
which rounds to 10. -/
def mW1 : DomainMetrics := ⟨20, 0, 2⟩

def dictW1 : List (String × DomainMetrics) := [("a.com", mW1)]

def serpW1 : List SerpEntry := [⟨1, "ta", "ua", some "a.com"⟩]

/-- The competitor row produced for `serpW1` against `dictW1`. -/
def csW1 : CompetitorStrength :=
  ⟨"a.com", 1, 20, 0, 2, 10, "WEAK - Easy to outrank"⟩

/-- The competitor rows produced for `serpCex` against `dictCex`. -/
def csA : CompetitorStrength := ⟨"a.com", 1, 20, 0, 0, 10, "WEAK - Easy to outrank"⟩

def csB : CompetitorStrength := ⟨"b.com", 2, 20, 0, 5, 101/10, "WEAK - Easy to outrank"⟩

def csC : CompetitorStrength := ⟨"c.com", 3, 20, 0, 15, 103/10, "WEAK - Easy to outrank"⟩

/-- Four SERP rows, for the content-length witnesses. -/
def serpW4 : List SerpEntry :=
  [⟨1, "t1", "u1", some "a.com"⟩, ⟨2, "t2", "u2", some "b.com"⟩,
   ⟨3, "t3", "u3", none⟩, ⟨4, "t4", "u4", some "d.com"⟩]

/-- A SERP row whose domain is absent from `dictW1`. -/
def entryMissing : SerpEntry := ⟨2, "tz", "uz", some "zzz.com"⟩

/-- `excludedEntry dict e` holds exactly when the competitor loop guard
`if domain and domain in competitor_metrics_dict` (source line 673) rejects
the entry `e`: missing domain, empty (falsy) domain, or domain not in the
dictionary. -/
def excludedEntry (dict : List (String × DomainMetrics)) (e : SerpEntry) : Bool :=
  match e.domain with
  | none => true
  | some d => (d == "") || (dict.lookup d).isNone

/-! ### Helper lemmas -/

theorem floor_le_roundHalfEven (q : ℚ) : ⌊q⌋ ≤ roundHalfEven q := by
  unfold roundHalfEven
  split_ifs <;> omega

theorem roundHalfEven_le_ceil (q : ℚ) : roundHalfEven q ≤ ⌈q⌉ := by
  have hfc : ⌊q⌋ ≤ ⌈q⌉ := Int.floor_le_ceil q
  have hstep : (1:ℚ)/2 ≤ q - ⌊q⌋ → ⌊q⌋ + 1 ≤ ⌈q⌉ := by
    intro h
    have hlt : (⌊q⌋ : ℚ) < q := by linarith
    have := Int.lt_ceil.mpr hlt
    omega
  unfold roundHalfEven
  split_ifs with h1 h2 h3
  · exact hfc
  · exact hstep (le_of_lt h2)
  · exact hfc
  · exact hstep (by linarith)

theorem round1_nonneg {q : ℚ} (h : 0 ≤ q) : 0 ≤ round1 q := by
  have h1 : (0:ℤ) ≤ ⌊q * 10⌋ := Int.floor_nonneg.mpr (by linarith)
  have h2 : (0:ℤ) ≤ roundHalfEven (q * 10) :=
    le_trans h1 (floor_le_roundHalfEven _)
  have h3 : (0:ℚ) ≤ (roundHalfEven (q * 10) : ℚ) := by exact_mod_cast h2
  unfold round1
  positivity

theorem round1_le_hundred {q : ℚ} (h : q ≤ 100) : round1 q ≤ 100 := by
  have h1 : roundHalfEven (q * 10) ≤ ⌈q * 10⌉ := roundHalfEven_le_ceil _
  have h2 : ⌈q * 10⌉ ≤ (1000:ℤ) := Int.ceil_le.mpr (by push_cast; linarith)
  have h3 : (roundHalfEven (q * 10) : ℚ) ≤ 1000 := by exact_mod_cast le_trans h1 h2
  unfold round1
  linarith

theorem pos1Norm_nonneg {your comp : DomainMetrics} (h : 0 ≤ comp.pos_1) :
    0 ≤ pos1Norm your comp := by
  unfold pos1Norm
  split_ifs with h1 h2
  · exact div_nonneg h h1.le
  · exact div_nonneg h (by norm_num)
  · exact le_refl 0

theorem etvNorm_nonneg {your comp : DomainMetrics} (h : 0 ≤ comp.etv) :
    0 ≤ etvNorm your comp := by
  unfold etvNorm
  split_ifs with h1 h2
  · exact div_nonneg h h1.le
  · exact div_nonneg h (by norm_num)
  · exact le_refl 0

theorem keywordsNorm_nonneg {your comp : DomainMetrics} (h : 0 ≤ comp.keywords) :
    0 ≤ keywordsNorm your comp := by
  unfold keywordsNorm
  split_ifs with h1 h2
  · exact div_nonneg h h1.le
  · exact div_nonneg h (by norm_num)
  · exact le_refl 0

theorem strengthRaw_le_hundred (your comp : DomainMetrics) :
    strengthRaw your comp ≤ 100 :=
  min_le_left _ _

theorem strengthRaw_nonneg {your comp : DomainMetrics} (h4 : 0 ≤ comp.pos_1)
    (h5 : 0 ≤ comp.etv) (h6 : 0 ≤ comp.keywords) : 0 ≤ strengthRaw your comp := by
  have n1 := @pos1Norm_nonneg your comp h4
  have n2 := @etvNorm_nonneg your comp h5
  have n3 := @keywordsNorm_nonneg your comp h6
  unfold strengthRaw
  have : (0:ℚ) ≤ pos1Norm your comp * 50 + etvNorm your comp * 30 +
      keywordsNorm your comp * 20 := by positivity
  exact le_min (by norm_num) this

theorem foldl_min_mem (ws : List ℕ) : ∀ w : ℕ, ws.foldl Nat.min w ∈ w :: ws := by
  induction ws with
  | nil => intro w; simp
  | cons x xs ih =>
    intro w
    have hfold : (x :: xs).foldl Nat.min w = xs.foldl Nat.min (Nat.min w x) := rfl
    rw [hfold]
    rcases List.mem_cons.mp (ih (Nat.min w x)) with h1 | h1
    · rw [h1]
      rcases Nat.le_total w x with hle | hle
      · have hmin : Nat.min w x = w := Nat.min_eq_left hle
        rw [hmin]
        exact List.mem_cons_self _ _
      · have hmin : Nat.min w x = x := Nat.min_eq_right hle
        rw [hmin]
        exact List.mem_cons.mpr (Or.inr (List.mem_cons_self _ _))
    · exact List.mem_cons.mpr (Or.inr (List.mem_cons.mpr (Or.inr h1)))

theorem foldl_min_le (ws : List ℕ) :
    ∀ w x : ℕ, x ∈ w :: ws → ws.foldl Nat.min w ≤ x := by
  induction ws with
  | nil =>
    intro w x hx
    rcases List.mem_cons.mp hx with h1 | h1
    · simp [h1]
    · simp at h1
  | cons y ys ih =>
    intro w x hx
    have hfold : (y :: ys).foldl Nat.min w = ys.foldl Nat.min (Nat.min w y) := rfl
    rw [hfold]
    have hself : ys.foldl Nat.min (Nat.min w y) ≤ Nat.min w y :=
      ih _ _ (List.mem_cons_self _ _)
    rcases List.mem_cons.mp hx with h1 | h1
    · have : Nat.min w y ≤ w := Nat.min_le_left _ _
      omega
    · rcases List.mem_cons.mp h1 with h2 | h2
      · have : Nat.min w y ≤ y := Nat.min_le_right _ _
        omega
      · exact ih _ _ (List.mem_cons.mpr (Or.inr h2))

theorem foldl_max_mem (ws : List ℕ) : ∀ w : ℕ, ws.foldl Nat.max w ∈ w :: ws := by
  induction ws with
  | nil => intro w; simp
  | cons x xs ih =>
    intro w
    have hfold : (x :: xs).foldl Nat.max w = xs.foldl Nat.max (Nat.max w x) := rfl
    rw [hfold]
    rcases List.mem_cons.mp (ih (Nat.max w x)) with h1 | h1
    · rw [h1]
      rcases Nat.le_total w x with hle | hle
      · have hmax : Nat.max w x = x := Nat.max_eq_right hle
        rw [hmax]
        exact List.mem_cons.mpr (Or.inr (List.mem_cons_self _ _))
      · have hmax : Nat.max w x = w := Nat.max_eq_left hle
        rw [hmax]
        exact List.mem_cons_self _ _
    · exact List.mem_cons.mpr (Or.inr (List.mem_cons.mpr (Or.inr h1)))

theorem le_foldl_max (ws : List ℕ) :
    ∀ w x : ℕ, x ∈ w :: ws → x ≤ ws.foldl Nat.max w := by
  induction ws with
  | nil =>
    intro w x hx
    rcases List.mem_cons.mp hx with h1 | h1
    · simp [h1]
    · simp at h1
  | cons y ys ih =>
    intro w x hx
    have hfold : (y :: ys).foldl Nat.max w = ys.foldl Nat.max (Nat.max w y) := rfl
    rw [hfold]
    have hself : Nat.max w y ≤ ys.foldl Nat.max (Nat.max w y) :=
      ih _ _ (List.mem_cons_self _ _)
    rcases List.mem_cons.mp hx with h1 | h1
    · have : w ≤ Nat.max w y := Nat.le_max_left _ _
      omega
    · rcases List.mem_cons.mp h1 with h2 | h2
      · have : y ≤ Nat.max w y := Nat.le_max_right _ _
        omega
      · exact ih _ _ (List.mem_cons.mpr (Or.inr h2))

theorem length_mul_le_sum (l : List ℕ) (n : ℕ) (h : ∀ x ∈ l, n ≤ x) :
    l.length * n ≤ l.sum := by
  induction l with
  | nil => simp
  | cons x xs ih =>
    have hx := h x (by simp)
    have hxs := ih fun y hy => h y (by simp [hy])
    simp only [List.length_cons, List.sum_cons]
    calc (xs.length + 1) * n = n + xs.length * n := by ring
      _ ≤ x + xs.sum := Nat.add_le_add hx hxs

theorem wordCountFor_ge (fetch : String → Option Nat) (url : String) :
    101 ≤ wordCountFor fetch url := by
  unfold wordCountFor
  cases fetch url with
  | none =>
    show (101:ℕ) ≤ 2000
    norm_num
  | some w =>
    show 101 ≤ if 100 < w then w else 2000
    by_cases hw : 100 < w
    · rw [if_pos hw]
      omega
    · rw [if_neg hw]
      norm_num

theorem mem_contentWordCounts_ge {fetch : String → Option Nat}
    {serp : List SerpEntry} {x : ℕ} (h : x ∈ contentWordCounts fetch serp) :
    101 ≤ x := by
  unfold contentWordCounts at h
  obtain ⟨r, _, rfl⟩ := List.mem_map.mp h
  exact wordCountFor_ge fetch r.url

theorem competitorFor_domain_none {your : DomainMetrics}
    {dict : List (String × DomainMetrics)} {r : SerpEntry}
    (h : r.domain = none) : competitorFor your dict r = none := by
  unfold competitorFor
  rw [h]

theorem competitorFor_domain_some {your : DomainMetrics}
    {dict : List (String × DomainMetrics)} {r : SerpEntry} {d : String}
    (h : r.domain = some d) :
    competitorFor your dict r =
      (if d = "" then none
       else
        match dict.lookup d with
        | none => none
        | some m =>
          some ⟨d, r.position, m.pos_1, m.etv, m.keywords,
            round1 (strengthRaw your m), difficultyLabel (strengthRaw your m)⟩) := by
  unfold competitorFor
  rw [h]

theorem filter_score_sortByScore (l : List CompetitorStrength) (q : ℚ) :
    (sortByScore l).filter (fun c => decide (c.strength_score = q)) =
      l.filter (fun c => decide (c.strength_score = q)) := by
  set p : CompetitorStrength → Bool := fun c => decide (c.strength_score = q) with hp
  have hpair : (l.filter p).Pairwise scoreLe := by
    refine List.pairwise_of_forall_mem_list ?_
    intro a ha b hb
    have ha2 : a.strength_score = q := by
      have := (List.mem_filter.mp ha).2
      rw [hp] at this
      exact of_decide_eq_true this
    have hb2 : b.strength_score = q := by
      have := (List.mem_filter.mp hb).2
      rw [hp] at this
      exact of_decide_eq_true this
    unfold scoreLe
    rw [ha2, hb2]
  have hsub : (l.filter p).Sublist (sortByScore l) :=
    List.sublist_insertionSort hpair (List.filter_sublist l)
  have hsub2 : (l.filter p).Sublist ((sortByScore l).filter p) := by
    have h1 := hsub.filter p
    have hff : List.filter (fun a => p a && p a) l = List.filter p l := by
      apply List.filter_congr
      intro a _
      cases hpa : p a <;> simp [hpa]
    rwa [List.filter_filter, hff] at h1
  have hlen : (l.filter p).length = ((sortByScore l).filter p).length :=
    (((List.perm_insertionSort scoreLe l).filter p).length_eq).symm
  exact (hsub2.eq_of_length hlen).symm

theorem sortByScore_sorted (l : List CompetitorStrength) :
    (sortByScore l).Sorted scoreLe :=
  List.sorted_insertionSort scoreLe l

theorem sortByScore_perm (l : List CompetitorStrength) :
    (sortByScore l).Perm l :=
  List.perm_insertionSort scoreLe l

theorem overallScoreOf_eq_take {l : List CompetitorStrength} (h : l ≠ []) :
    overallScoreOf l =
      ((l.take (min 5 l.length)).map fun c => c.strength_score).sum /
        ((min 5 l.length : ℕ) : ℚ) := by
  unfold overallScoreOf topFive
  by_cases h5 : 5 ≤ l.length
  · rw [if_pos h5]
    have hmin : min 5 l.length = 5 := min_eq_left h5
    have hne : ¬(l.take 5).isEmpty := by
      rw [List.isEmpty_iff_length_eq_zero, List.length_take]
      omega
    rw [if_neg hne, List.length_take, hmin]
  · rw [if_neg h5]
    have hmin : min 5 l.length = l.length := by omega
    have hne : ¬l.isEmpty := by
      rw [List.isEmpty_iff]
      exact h
    rw [if_neg hne, hmin, List.take_length]

theorem mem_competitorAnalysisOf {your : DomainMetrics}
    {dict : List (String × DomainMetrics)} {serp : List SerpEntry}
    {c : CompetitorStrength} (hc : c ∈ competitorAnalysisOf your dict serp) :
    ∃ m, dict.lookup c.domain = some m ∧
      c.strength_score = round1 (strengthRaw your m) ∧
      c.difficulty = difficultyLabel (strengthRaw your m) := by
  obtain ⟨r, _, hfor⟩ := List.mem_filterMap.mp hc
  cases hdom : r.domain with
  | none =>
    rw [competitorFor_domain_none hdom] at hfor
    cases hfor
  | some d =>
    rw [competitorFor_domain_some hdom] at hfor
    by_cases hd : d = ""
    · rw [if_pos hd] at hfor
      cases hfor
    · rw [if_neg hd] at hfor
      cases hlook : dict.lookup d with
      | none =>
        rw [hlook] at hfor
        cases hfor
      | some m =>
        rw [hlook] at hfor
        have hc2 := Option.some.inj hfor
        refine ⟨m, ?_, ?_, ?_⟩
        · rw [← hc2]
          exact hlook
        · rw [← hc2]
        · rw [← hc2]

theorem competitorFor_eq_none {your : DomainMetrics}
    {dict : List (String × DomainMetrics)} {e : SerpEntry}
    (h : excludedEntry dict e = true) : competitorFor your dict e = none := by
  unfold excludedEntry at h
  cases hdom : e.domain with
  | none => exact competitorFor_domain_none hdom
  | some d =>
    rw [competitorFor_domain_some hdom]
    rw [hdom] at h
    have h2 : (d == "" || (List.lookup d dict).isNone) = true := h
    rcases Bool.or_eq_true_iff.mp h2 with h1 | h1
    · rw [if_pos (by simpa using h1)]
    · have hlook : List.lookup d dict = none := Option.isNone_iff_eq_none.mp h1
      by_cases hd : d = ""
      · rw [if_pos hd]
      · rw [if_neg hd, hlook]

/-! ### Claims -/

/-- C2: for every own-domain metrics and competitor metrics with non-negative
`pos_1`, `etv` and `keywords`, the computed strength score lies in `[0, 100]`,
both before and after the one-decimal rounding; ratios exceeding 1 never
produce a score above 100 because of the `min(100, ...)` clamp. -/
theorem C2_score_clamped (your comp : DomainMetrics) (h1 : 0 ≤ your.pos_1)
    (h2 : 0 ≤ your.etv) (h3 : 0 ≤ your.keywords) (h4 : 0 ≤ comp.pos_1)
    (h5 : 0 ≤ comp.etv) (h6 : 0 ≤ comp.keywords) :
    0 ≤ strengthRaw your comp ∧ strengthRaw your comp ≤ 100 ∧
      0 ≤ round1 (strengthRaw your comp) ∧ round1 (strengthRaw your comp) ≤ 100 :=
  have ha : 0 ≤ strengthRaw your comp := strengthRaw_nonneg h4 h5 h6
  have hb : strengthRaw your comp ≤ 100 := strengthRaw_le_hundred your comp
  ⟨ha, hb, round1_nonneg ha, round1_le_hundred hb⟩

theorem C2_score_clamped_witness :
    (0 ≤ (⟨1, 1, 1⟩ : DomainMetrics).pos_1 ∧ 0 ≤ (⟨1, 1, 1⟩ : DomainMetrics).etv ∧
      0 ≤ (⟨1, 1, 1⟩ : DomainMetrics).keywords ∧
      0 ≤ (⟨200, 300, 400⟩ : DomainMetrics).pos_1 ∧
      0 ≤ (⟨200, 300, 400⟩ : DomainMetrics).etv ∧
      0 ≤ (⟨200, 300, 400⟩ : DomainMetrics).keywords) ∧
    (0 ≤ strengthRaw ⟨1, 1, 1⟩ ⟨200, 300, 400⟩ ∧
      strengthRaw ⟨1, 1, 1⟩ ⟨200, 300, 400⟩ ≤ 100 ∧
      0 ≤ round1 (strengthRaw ⟨1, 1, 1⟩ ⟨200, 300, 400⟩) ∧
      round1 (strengthRaw ⟨1, 1, 1⟩ ⟨200, 300, 400⟩) ≤ 100) :=
  ⟨⟨by decide, by decide, by decide, by decide, by decide, by decide⟩,
    C2_score_clamped ⟨1, 1, 1⟩ ⟨200, 300, 400⟩ (by decide) (by decide) (by decide)
      (by decide) (by decide) (by decide)⟩

/-- C3: the difficulty label is WEAK iff the score is at most 30, MEDIUM iff
it is in (30, 60], STRONG iff in (60, 85] and DOMINANT iff above 85; the
verdict together with its fixed target-position string is mapped by the same
closed-at-threshold bands, and the assessment wires the verdict pair from the
overall score. -/
theorem C3_threshold_bands : (∀ s : ℚ,
    (difficultyLabel s = "WEAK - Easy to outrank" ↔ s ≤ 30) ∧
    (difficultyLabel s = "MEDIUM - Moderate effort needed" ↔ 30 < s ∧ s ≤ 60) ∧
    (difficultyLabel s = "STRONG - Significant effort required" ↔ 60 < s ∧ s ≤ 85) ∧
    (difficultyLabel s = "DOMINANT - Very difficult to outrank" ↔ 85 < s) ∧
    (verdictFor s = ("LOW COMPETITION - Excellent opportunity", "1-3") ↔ s ≤ 30) ∧
    (verdictFor s = ("MEDIUM COMPETITION - Good opportunity with quality content", "3-5") ↔
      30 < s ∧ s ≤ 60) ∧
    (verdictFor s = ("HIGH COMPETITION - Requires exceptional content and link building", "5-10") ↔
      60 < s ∧ s ≤ 85) ∧
    (verdictFor s = ("VERY HIGH COMPETITION - Long-term strategy needed", "10-20 initially") ↔
      85 < s)) ∧
    (∀ (fetch : String → Option Nat) (your : DomainMetrics)
      (dict : List (String × DomainMetrics)) (serp : List SerpEntry),
      (calculate_competition_assessment fetch your dict serp).verdict =
        (verdictFor (overallScoreOf (sortByScore (competitorAnalysisOf your dict serp)))).1 ∧
      (calculate_competition_assessment fetch your dict serp).target_position =
        (verdictFor (overallScoreOf (sortByScore (competitorAnalysisOf your dict serp)))).2) := by
  constructor
  · intro s
    unfold difficultyLabel verdictFor
    split_ifs with h1 h2 h3 <;> simp_all <;> try linarith
    all_goals exact ⟨fun h => by linarith, by linarith, fun h => by linarith, by linarith⟩
  · intro fetch your dict serp
    exact ⟨rfl, rfl⟩

/-- C7: with own metrics all zero and the single competitor 50/20000/3000 at
SERP position 1, the zero-denominator fallbacks give ratios 1/2, 2 and 3/5, a
strength score of 97 and the DOMINANT label, and the assessment lists exactly
that competitor row. -/
theorem C7_zero_denominator_scenario :
    pos1Norm yourC7 compC7 = 1/2 ∧ etvNorm yourC7 compC7 = 2 ∧
    keywordsNorm yourC7 compC7 = 3/5 ∧ strengthRaw yourC7 compC7 = 97 ∧
    difficultyLabel (strengthRaw yourC7 compC7) = "DOMINANT - Very difficult to outrank" ∧
    (calculate_competition_assessment fetchNone yourC7 dictC7 serpC7).competitor_analysis =
      [csC7] := by
  have h1 : strengthRaw yourC7 compC7 = 97 := by
    norm_num [strengthRaw, pos1Norm, etvNorm, keywordsNorm, yourC7, compC7]
  have h2 : round1 97 = 97 := by norm_num [round1, roundHalfEven]
  have h3 : difficultyLabel 97 = "DOMINANT - Very difficult to outrank" := by
    norm_num [difficultyLabel]
  have h4 : competitorAnalysisOf yourC7 dictC7 serpC7 = [csC7] := by
    simp [competitorAnalysisOf, serpC7, List.filterMap_cons, competitorFor,
      dictC7, List.lookup, h1, h2, h3, csC7]
    exact ⟨rfl, rfl, rfl⟩
  refine ⟨?_, ?_, ?_, h1, ?_, ?_⟩
  · norm_num [pos1Norm, yourC7, compC7]
  · norm_num [etvNorm, yourC7, compC7]
  · norm_num [keywordsNorm, yourC7, compC7]
  · rw [h1, h3]
  · show sortByScore (competitorAnalysisOf yourC7 dictC7 serpC7) = [csC7]
    rw [h4]
    rfl

/-- C8: on the empty SERP the estimator returns exactly the hardcoded default
profile and the assessment has an empty competitor list and overall score 0;
both functions are total, so nothing is raised. -/
theorem C8_empty_serp_defaults (fetch : String → Option Nat)
    (your : DomainMetrics) (dict : List (String × DomainMetrics)) :
    estimate_content_length fetch [] = ⟨3000, 3000, 1500, 5000, 3000, 4000, []⟩ ∧
    (calculate_competition_assessment fetch your dict []).competitor_analysis = [] ∧
    (calculate_competition_assessment fetch your dict []).overall_score = 0 := by
  refine ⟨rfl, rfl, ?_⟩
  show round1 (overallScoreOf (sortByScore (competitorAnalysisOf your dict []))) = 0
  norm_num [sortByScore, competitorAnalysisOf, List.insertionSort, overallScoreOf,
    topFive, round1, roundHalfEven]

/-- C4: with at least four SERP entries, exactly the first four are analyzed
and exactly four word-count samples are produced; any position whose fetch is
unavailable or counts fewer than 100 words contributes the fixed fallback
2000, fetch failures are absorbed rather than surfaced, and the average is
taken over exactly those four samples. -/
theorem C4_always_four_samples (fetch : String → Option Nat)
    (serp : List SerpEntry) (h : 4 ≤ serp.length) :
    (contentWordCounts fetch serp).length = 4 ∧
    contentWordCounts fetch serp = contentWordCounts fetch (serp.take 4) ∧
    (∀ r ∈ serp.take 4,
      (fetch r.url = none ∨ ∃ w, fetch r.url = some w ∧ w < 100) →
        wordCountFor fetch r.url = 2000) ∧
    (estimate_content_length fetch serp).detailed_estimates.length = 4 ∧
    (estimate_content_length fetch serp).average =
      ((contentWordCounts fetch serp).sum : ℚ) / 4 := by
  have hlen : (contentWordCounts fetch serp).length = 4 := by
    unfold contentWordCounts
    rw [List.length_map, List.length_take]
    omega
  have hfall : ∀ r ∈ serp.take 4,
      (fetch r.url = none ∨ ∃ w, fetch r.url = some w ∧ w < 100) →
        wordCountFor fetch r.url = 2000 := by
    intro r _ hbad
    unfold wordCountFor
    rcases hbad with hnone | ⟨w, hw, hlt⟩
    · rw [hnone]
    · rw [hw]
      show (if 100 < w then w else 2000) = 2000
      rw [if_neg (by omega)]
  cases hwc : contentWordCounts fetch serp with
  | nil =>
    rw [hwc] at hlen
    cases hlen
  | cons w ws =>
    have hlen2 : (w :: ws).length = 4 := by rw [← hwc]; exact hlen
    have hEst : estimate_content_length fetch serp =
        profileFromCounts (w :: ws) (detailedEstimatesOf fetch serp) := by
      unfold estimate_content_length
      rw [hwc]
    refine ⟨hlen2, ?_, hfall, ?_, ?_⟩
    · rw [← hwc]
      unfold contentWordCounts
      rw [List.take_take]
      norm_num
    · rw [hEst]
      show (detailedEstimatesOf fetch serp).length = 4
      unfold detailedEstimatesOf
      rw [List.length_map, List.length_take]
      omega
    · rw [hEst]
      show (((w :: ws).sum : ℕ) : ℚ) / (((w :: ws).length : ℕ) : ℚ) =
        ((w :: ws).sum : ℚ) / 4
      rw [hlen2]
      norm_num

theorem C4_always_four_samples_witness :
    4 ≤ serpW4.length ∧
    ((contentWordCounts fetchNone serpW4).length = 4 ∧
      contentWordCounts fetchNone serpW4 = contentWordCounts fetchNone (serpW4.take 4) ∧
      (∀ r ∈ serpW4.take 4,
        (fetchNone r.url = none ∨ ∃ w, fetchNone r.url = some w ∧ w < 100) →
          wordCountFor fetchNone r.url = 2000) ∧
      (estimate_content_length fetchNone serpW4).detailed_estimates.length = 4 ∧
      (estimate_content_length fetchNone serpW4).average =
        ((contentWordCounts fetchNone serpW4).sum : ℚ) / 4) :=
  ⟨by decide, C4_always_four_samples fetchNone serpW4 (by decide)⟩

/-- C5: for a non-empty sample list the profile fields are the arithmetic mean,
the element at index `len // 2` of any sorted arrangement of the samples (for
four samples the upper-middle value), the sample minimum and maximum, and the
recommended band `floor(average * 1.10)`–`floor(average * 1.20)`. -/
theorem C5_profile_statistics (fetch : String → Option Nat)
    (serp : List SerpEntry) (h : contentWordCounts fetch serp ≠ []) :
    (estimate_content_length fetch serp).average =
      ((contentWordCounts fetch serp).sum : ℚ) /
        ((contentWordCounts fetch serp).length : ℚ) ∧
    (∀ l : List ℕ, l.Perm (contentWordCounts fetch serp) → l.Sorted (· ≤ ·) →
      (estimate_content_length fetch serp).median =
        l.getD ((contentWordCounts fetch serp).length / 2) 0) ∧
    (estimate_content_length fetch serp).min ∈ contentWordCounts fetch serp ∧
    (∀ x ∈ contentWordCounts fetch serp, (estimate_content_length fetch serp).min ≤ x) ∧
    (estimate_content_length fetch serp).max ∈ contentWordCounts fetch serp ∧
    (∀ x ∈ contentWordCounts fetch serp, x ≤ (estimate_content_length fetch serp).max) ∧
    (estimate_content_length fetch serp).recommended_min =
      ⌊(estimate_content_length fetch serp).average * (11/10)⌋ ∧
    (estimate_content_length fetch serp).recommended_max =
      ⌊(estimate_content_length fetch serp).average * (12/10)⌋ := by
  cases hwc : contentWordCounts fetch serp with
  | nil => exact absurd hwc h
  | cons w ws =>
    have hEst : estimate_content_length fetch serp =
        profileFromCounts (w :: ws) (detailedEstimatesOf fetch serp) := by
      unfold estimate_content_length
      rw [hwc]
    refine ⟨?_, ?_, ?_, ?_, ?_, ?_, ?_, ?_⟩
    · rw [hEst]
      rfl
    · intro l hperm hsort
      have hl : l = (w :: ws).insertionSort (· ≤ ·) :=
        List.eq_of_perm_of_sorted
          (hperm.trans (List.perm_insertionSort (· ≤ ·) (w :: ws)).symm) hsort
          (List.sorted_insertionSort (· ≤ ·) (w :: ws))
      rw [hEst]
      show ((w :: ws).insertionSort (· ≤ ·)).getD ((w :: ws).length / 2) 0 =
        l.getD ((w :: ws).length / 2) 0
      rw [hl]
    · rw [hEst]
      show ws.foldl Nat.min w ∈ w :: ws
      exact foldl_min_mem ws w
    · intro x hx
      rw [hEst]
      exact foldl_min_le ws w x hx
    · rw [hEst]
      show ws.foldl Nat.max w ∈ w :: ws
      exact foldl_max_mem ws w
    · intro x hx
      rw [hEst]
      exact le_foldl_max ws w x hx
    · rw [hEst]
      show pyInt ((((w :: ws).sum : ℕ) : ℚ) / (((w :: ws).length : ℕ) : ℚ) * (11/10)) =
        ⌊(((w :: ws).sum : ℕ) : ℚ) / (((w :: ws).length : ℕ) : ℚ) * (11/10)⌋
      unfold pyInt
      rw [if_pos (by positivity)]
    · rw [hEst]
      show pyInt ((((w :: ws).sum : ℕ) : ℚ) / (((w :: ws).length : ℕ) : ℚ) * (12/10)) =
        ⌊(((w :: ws).sum : ℕ) : ℚ) / (((w :: ws).length : ℕ) : ℚ) * (12/10)⌋
      unfold pyInt
      rw [if_pos (by positivity)]

theorem C5_profile_statistics_witness :
    contentWordCounts fetchNone serpW4 ≠ [] ∧
    ((estimate_content_length fetchNone serpW4).average =
      ((contentWordCounts fetchNone serpW4).sum : ℚ) /
        ((contentWordCounts fetchNone serpW4).length : ℚ) ∧
    (∀ l : List ℕ, l.Perm (contentWordCounts fetchNone serpW4) → l.Sorted (· ≤ ·) →
      (estimate_content_length fetchNone serpW4).median =
        l.getD ((contentWordCounts fetchNone serpW4).length / 2) 0) ∧
    (estimate_content_length fetchNone serpW4).min ∈ contentWordCounts fetchNone serpW4 ∧
    (∀ x ∈ contentWordCounts fetchNone serpW4,
      (estimate_content_length fetchNone serpW4).min ≤ x) ∧
    (estimate_content_length fetchNone serpW4).max ∈ contentWordCounts fetchNone serpW4 ∧
    (∀ x ∈ contentWordCounts fetchNone serpW4,
      x ≤ (estimate_content_length fetchNone serpW4).max) ∧
    (estimate_content_length fetchNone serpW4).recommended_min =
      ⌊(estimate_content_length fetchNone serpW4).average * (11/10)⌋ ∧
    (estimate_content_length fetchNone serpW4).recommended_max =
      ⌊(estimate_content_length fetchNone serpW4).average * (12/10)⌋) :=
  ⟨by decide, C5_profile_statistics fetchNone serpW4 (by decide)⟩

/-- C6: for every profile returned by the estimator, the recommended band is
ordered, both recommended values are at least the average, and in particular
the recommended minimum is at least the floor of the average. -/
theorem C6_recommended_band (fetch : String → Option Nat) (serp : List SerpEntry) :
    (estimate_content_length fetch serp).recommended_min ≤
      (estimate_content_length fetch serp).recommended_max ∧
    (estimate_content_length fetch serp).average ≤
      ((estimate_content_length fetch serp).recommended_min : ℚ) ∧
    (estimate_content_length fetch serp).average ≤
      ((estimate_content_length fetch serp).recommended_max : ℚ) ∧
    ⌊(estimate_content_length fetch serp).average⌋ ≤
      (estimate_content_length fetch serp).recommended_min := by
  cases hwc : contentWordCounts fetch serp with
  | nil =>
    have hEst : estimate_content_length fetch serp =
        ⟨3000, 3000, 1500, 5000, 3000, 4000, []⟩ := by
      unfold estimate_content_length
      rw [hwc]
      rfl
    rw [hEst]
    refine ⟨by norm_num, by norm_num, by norm_num, ?_⟩
    show ⌊(3000:ℚ)⌋ ≤ (3000:ℤ)
    norm_num
  | cons w ws =>
    have hEst : estimate_content_length fetch serp =
        profileFromCounts (w :: ws) (detailedEstimatesOf fetch serp) := by
      unfold estimate_content_length
      rw [hwc]
    have hall : ∀ x ∈ w :: ws, 101 ≤ x := by
      intro x hx
      exact mem_contentWordCounts_ge (hwc ▸ hx)
    have hsum : (w :: ws).length * 101 ≤ (w :: ws).sum :=
      length_mul_le_sum _ _ hall
    have hlenpos : (0:ℚ) < (((w :: ws).length : ℕ) : ℚ) := by
      have h0 : 0 < (w :: ws).length := by simp
      exact_mod_cast h0
    set A : ℚ := (((w :: ws).sum : ℕ) : ℚ) / (((w :: ws).length : ℕ) : ℚ) with hA_def
    have hA : 101 ≤ A := by
      rw [hA_def, le_div_iff₀ hlenpos]
      exact_mod_cast (show (101 * (w :: ws).length : ℕ) ≤ (w :: ws).sum by omega)
    have hfl1 := Int.sub_one_lt_floor (A * (11/10))
    have hfl2 := Int.sub_one_lt_floor (A * (12/10))
    have hfloor_min : pyInt (A * (11/10)) = ⌊A * (11/10)⌋ := by
      unfold pyInt
      rw [if_pos (by linarith)]
    have hfloor_max : pyInt (A * (12/10)) = ⌊A * (12/10)⌋ := by
      unfold pyInt
      rw [if_pos (by linarith)]
    refine ⟨?_, ?_, ?_, ?_⟩
    · rw [hEst]
      show pyInt (A * (11/10)) ≤ pyInt (A * (12/10))
      rw [hfloor_min, hfloor_max]
      exact Int.floor_le_floor (by linarith)
    · rw [hEst]
      show A ≤ (pyInt (A * (11/10)) : ℚ)
      rw [hfloor_min]
      linarith
    · rw [hEst]
      show A ≤ (pyInt (A * (12/10)) : ℚ)
      rw [hfloor_max]
      linarith
    · rw [hEst]
      show ⌊A⌋ ≤ pyInt (A * (11/10))
      rw [hfloor_min]
      exact Int.floor_le_floor (by linarith)

/-- C9: a SERP entry whose domain is missing, empty or absent from the
authority dictionary is silently dropped: it contributes no competitor row,
removing it from the SERP leaves the competitor list and overall score of the
assessment unchanged, and every produced competitor does have metrics in the
dictionary (no zero-strength rows are fabricated). -/
theorem C9_silent_exclusion (fetch : String → Option Nat) (your : DomainMetrics)
    (dict : List (String × DomainMetrics)) (l₁ l₂ : List SerpEntry) (e : SerpEntry)
    (h : excludedEntry dict e = true) :
    competitorFor your dict e = none ∧
    competitorAnalysisOf your dict (l₁ ++ e :: l₂) =
      competitorAnalysisOf your dict (l₁ ++ l₂) ∧
    (calculate_competition_assessment fetch your dict (l₁ ++ e :: l₂)).competitor_analysis =
      (calculate_competition_assessment fetch your dict (l₁ ++ l₂)).competitor_analysis ∧
    (calculate_competition_assessment fetch your dict (l₁ ++ e :: l₂)).overall_score =
      (calculate_competition_assessment fetch your dict (l₁ ++ l₂)).overall_score ∧
    (∀ c ∈ competitorAnalysisOf your dict (l₁ ++ e :: l₂),
      (dict.lookup c.domain).isSome) := by
  have hnone : competitorFor your dict e = none := competitorFor_eq_none h
  have hana : competitorAnalysisOf your dict (l₁ ++ e :: l₂) =
      competitorAnalysisOf your dict (l₁ ++ l₂) := by
    unfold competitorAnalysisOf
    rw [List.filterMap_append, List.filterMap_append, List.filterMap_cons, hnone]
  refine ⟨hnone, hana, ?_, ?_, ?_⟩
  · show sortByScore (competitorAnalysisOf your dict (l₁ ++ e :: l₂)) =
      sortByScore (competitorAnalysisOf your dict (l₁ ++ l₂))
    rw [hana]
  · show round1 (overallScoreOf (sortByScore (competitorAnalysisOf your dict (l₁ ++ e :: l₂)))) =
      round1 (overallScoreOf (sortByScore (competitorAnalysisOf your dict (l₁ ++ l₂))))
    rw [hana]
  · intro c hc
    obtain ⟨m, hm, _, _⟩ := mem_competitorAnalysisOf hc
    rw [hm]
    rfl

theorem C9_silent_exclusion_witness :
    excludedEntry dictW1 entryMissing = true ∧
    (competitorFor yourBase dictW1 entryMissing = none ∧
    competitorAnalysisOf yourBase dictW1 (serpW1 ++ entryMissing :: []) =
      competitorAnalysisOf yourBase dictW1 (serpW1 ++ []) ∧
    (calculate_competition_assessment fetchNone yourBase dictW1
        (serpW1 ++ entryMissing :: [])).competitor_analysis =
      (calculate_competition_assessment fetchNone yourBase dictW1
        (serpW1 ++ [])).competitor_analysis ∧
    (calculate_competition_assessment fetchNone yourBase dictW1
        (serpW1 ++ entryMissing :: [])).overall_score =
      (calculate_competition_assessment fetchNone yourBase dictW1
        (serpW1 ++ [])).overall_score ∧
    (∀ c ∈ competitorAnalysisOf yourBase dictW1 (serpW1 ++ entryMissing :: []),
      (dictW1.lookup c.domain).isSome)) :=
  ⟨by decide,
    C9_silent_exclusion fetchNone yourBase dictW1 serpW1 [] entryMissing (by decide)⟩

/-- C1 (amended): the returned competitor collection is the stable ascending
sort of the scored SERP competitors — sorted by strength score, a permutation
of the unsorted analysis, with equal-score rows keeping their SERP order — and
`overall_score` is the arithmetic mean of the strength scores of the first
`min(5, N)` entries of the sorted list, rounded to one decimal place. -/
theorem C1_sorted_and_overall (fetch : String → Option Nat) (your : DomainMetrics)
    (dict : List (String × DomainMetrics)) (serp : List SerpEntry)
    (h : 1 ≤ (competitorAnalysisOf your dict serp).length) :
    (calculate_competition_assessment fetch your dict serp).competitor_analysis.Sorted
      scoreLe ∧
    (calculate_competition_assessment fetch your dict serp).competitor_analysis.Perm
      (competitorAnalysisOf your dict serp) ∧
    (∀ q : ℚ,
      (calculate_competition_assessment fetch your dict serp).competitor_analysis.filter
          (fun c => decide (c.strength_score = q)) =
        (competitorAnalysisOf your dict serp).filter
          (fun c => decide (c.strength_score = q))) ∧
    (calculate_competition_assessment fetch your dict serp).overall_score =
      round1
        ((((calculate_competition_assessment fetch your dict serp).competitor_analysis.take
              (min 5 (competitorAnalysisOf your dict serp).length)).map
            (fun c => c.strength_score)).sum /
          ((min 5 (competitorAnalysisOf your dict serp).length : ℕ) : ℚ)) := by
  have hlen : (sortByScore (competitorAnalysisOf your dict serp)).length =
      (competitorAnalysisOf your dict serp).length := by
    unfold sortByScore
    exact List.length_insertionSort _ _
  have hne : sortByScore (competitorAnalysisOf your dict serp) ≠ [] := by
    intro hnil
    rw [hnil] at hlen
    simp at hlen
    omega
  refine ⟨sortByScore_sorted _, sortByScore_perm _,
    fun q => filter_score_sortByScore _ q, ?_⟩
  show round1 (overallScoreOf (sortByScore (competitorAnalysisOf your dict serp))) =
    round1
      ((((sortByScore (competitorAnalysisOf your dict serp)).take
            (min 5 (competitorAnalysisOf your dict serp).length)).map
          (fun c => c.strength_score)).sum /
        ((min 5 (competitorAnalysisOf your dict serp).length : ℕ) : ℚ))
  rw [overallScoreOf_eq_take hne, hlen]

theorem C1_sorted_and_overall_witness :
    1 ≤ (competitorAnalysisOf yourBase dictW1 serpW1).length ∧
    ((calculate_competition_assessment fetchNone yourBase dictW1 serpW1).competitor_analysis.Sorted
      scoreLe ∧
    (calculate_competition_assessment fetchNone yourBase dictW1 serpW1).competitor_analysis.Perm
      (competitorAnalysisOf yourBase dictW1 serpW1) ∧
    (∀ q : ℚ,
      (calculate_competition_assessment fetchNone yourBase dictW1 serpW1).competitor_analysis.filter
          (fun c => decide (c.strength_score = q)) =
        (competitorAnalysisOf yourBase dictW1 serpW1).filter
          (fun c => decide (c.strength_score = q))) ∧
    (calculate_competition_assessment fetchNone yourBase dictW1 serpW1).overall_score =
      round1
        ((((calculate_competition_assessment fetchNone yourBase dictW1 serpW1).competitor_analysis.take
              (min 5 (competitorAnalysisOf yourBase dictW1 serpW1).length)).map
            (fun c => c.strength_score)).sum /
          ((min 5 (competitorAnalysisOf yourBase dictW1 serpW1).length : ℕ) : ℚ))) :=
  ⟨by decide, C1_sorted_and_overall fetchNone yourBase dictW1 serpW1 (by decide)⟩

theorem analysisW1_eq : competitorAnalysisOf yourBase dictW1 serpW1 = [csW1] := by
  have h1 : strengthRaw yourBase mW1 = 251/25 := by
    norm_num [strengthRaw, pos1Norm, etvNorm, keywordsNorm, yourBase, mW1]
  have h2 : round1 (251/25) = 10 := by norm_num [round1, roundHalfEven]
  have h3 : difficultyLabel (251/25) = "WEAK - Easy to outrank" := by
    norm_num [difficultyLabel]
  simp [competitorAnalysisOf, serpW1, List.filterMap_cons, competitorFor,
    dictW1, List.lookup, h1, h2, h3, csW1]
  exact ⟨rfl, rfl, rfl⟩

theorem analysisCex_eq :
    competitorAnalysisOf yourBase dictCex serpCex = [csA, csB, csC] := by
  have h1a : strengthRaw yourBase ⟨20, 0, 0⟩ = 10 := by
    norm_num [strengthRaw, pos1Norm, etvNorm, keywordsNorm, yourBase]
  have h1b : strengthRaw yourBase ⟨20, 0, 5⟩ = 101/10 := by
    norm_num [strengthRaw, pos1Norm, etvNorm, keywordsNorm, yourBase]
  have h1c : strengthRaw yourBase ⟨20, 0, 15⟩ = 103/10 := by
    norm_num [strengthRaw, pos1Norm, etvNorm, keywordsNorm, yourBase]
  have h2a : round1 10 = 10 := by norm_num [round1, roundHalfEven]
  have h2b : round1 (101/10) = 101/10 := by norm_num [round1, roundHalfEven]
  have h2c : round1 (103/10) = 103/10 := by norm_num [round1, roundHalfEven]
  have h3a : difficultyLabel 10 = "WEAK - Easy to outrank" := by
    norm_num [difficultyLabel]
  have h3b : difficultyLabel (101/10) = "WEAK - Easy to outrank" := by
    norm_num [difficultyLabel]
  have h3c : difficultyLabel (103/10) = "WEAK - Easy to outrank" := by
    norm_num [difficultyLabel]
  simp [competitorAnalysisOf, serpCex, List.filterMap_cons, competitorFor,
    dictCex, List.lookup, h1a, h1b, h1c, h2a, h2b, h2c, h3a, h3b, h3c,
    csA, csB, csC]

/-- C1 (counterexample): with three matching competitors whose rounded scores
are 10, 10.1 and 10.3, the returned `overall_score` is 10.1 while the mean of
the first `min(5, 3)` sorted strength scores is 152/15 = 10.1333…, so the
claim that `overall_score` equals that mean (without the final one-decimal
rounding) is false. -/
theorem C1_overall_counterexample :
    (competitorAnalysisOf yourBase dictCex serpCex).length = 3 ∧
    (calculate_competition_assessment fetchNone yourBase dictCex serpCex).overall_score ≠
      ((((calculate_competition_assessment fetchNone yourBase dictCex serpCex).competitor_analysis.take
            (min 5 (competitorAnalysisOf yourBase dictCex serpCex).length)).map
          (fun c => c.strength_score)).sum /
        ((min 5 (competitorAnalysisOf yourBase dictCex serpCex).length : ℕ) : ℚ)) := by
  have hsorted : List.Sorted scoreLe [csA, csB, csC] := by
    norm_num [List.sorted_cons, scoreLe, csA, csB, csC]
  have hsort : sortByScore [csA, csB, csC] = [csA, csB, csC] :=
    List.Sorted.insertionSort_eq hsorted
  have hover : overallScoreOf [csA, csB, csC] = 152/15 := by
    norm_num [overallScoreOf, topFive, csA, csB, csC]
  have hr : round1 (152/15) = 101/10 := by norm_num [round1, roundHalfEven]
  refine ⟨by rw [analysisCex_eq]; rfl, ?_⟩
  show round1 (overallScoreOf (sortByScore (competitorAnalysisOf yourBase dictCex serpCex))) ≠
    ((((sortByScore (competitorAnalysisOf yourBase dictCex serpCex)).take
          (min 5 (competitorAnalysisOf yourBase dictCex serpCex).length)).map
        (fun c => c.strength_score)).sum /
      ((min 5 (competitorAnalysisOf yourBase dictCex serpCex).length : ℕ) : ℚ))
  rw [analysisCex_eq, hsort, hover, hr]
  norm_num [csA, csB, csC]

/-- C10: each stored `strength_score` is the raw weighted score rounded to one
decimal, the returned `overall_score` is the rounded mean of those
already-rounded values, and on a concrete input (one competitor with raw score
251/25 = 10.04) the returned overall score, 10, differs from the mean of the
unrounded raw scores. -/
theorem C10_rounded_scores :
    (∀ (your : DomainMetrics) (dict : List (String × DomainMetrics))
        (serp : List SerpEntry) (c : CompetitorStrength),
        c ∈ competitorAnalysisOf your dict serp →
          ∃ m, dict.lookup c.domain = some m ∧
            c.strength_score = round1 (strengthRaw your m)) ∧
    (∀ (fetch : String → Option Nat) (your : DomainMetrics)
        (dict : List (String × DomainMetrics)) (serp : List SerpEntry),
        (calculate_competition_assessment fetch your dict serp).overall_score =
          round1 (overallScoreOf (sortByScore (competitorAnalysisOf your dict serp)))) ∧
    (calculate_competition_assessment fetchNone yourBase dictW1 serpW1).overall_score = 10 ∧
    strengthRaw yourBase mW1 = 251/25 ∧
    (calculate_competition_assessment fetchNone yourBase dictW1 serpW1).overall_score ≠
      strengthRaw yourBase mW1 := by
  have hraw : strengthRaw yourBase mW1 = 251/25 := by
    norm_num [strengthRaw, pos1Norm, etvNorm, keywordsNorm, yourBase, mW1]
  have hoverall :
      (calculate_competition_assessment fetchNone yourBase dictW1 serpW1).overall_score = 10 := by
    show round1 (overallScoreOf (sortByScore (competitorAnalysisOf yourBase dictW1 serpW1))) = 10
    rw [analysisW1_eq]
    have hsort : sortByScore [csW1] = [csW1] := rfl
    rw [hsort]
    have hover : overallScoreOf [csW1] = 10 := by
      norm_num [overallScoreOf, topFive, csW1]
    rw [hover]
    norm_num [round1, roundHalfEven]
  refine ⟨?_, ?_, hoverall, hraw, ?_⟩
  · intro your dict serp c hc
    obtain ⟨m, hm, hs, _⟩ := mem_competitorAnalysisOf hc
    exact ⟨m, hm, hs⟩
  · intro fetch your dict serp
    rfl
  · rw [hoverall, hraw]
    norm_num

theorem C10_rounded_scores_witness :
    csW1 ∈ competitorAnalysisOf yourBase dictW1 serpW1 ∧
    (∃ m, dictW1.lookup csW1.domain = some m ∧
      csW1.strength_score = round1 (strengthRaw yourBase m)) := by
  have hmem : csW1 ∈ competitorAnalysisOf yourBase dictW1 serpW1 := by
    rw [analysisW1_eq]
    exact List.mem_cons_self _ _
  exact ⟨hmem, C10_rounded_scores.1 yourBase dictW1 serpW1 csW1 hmem⟩
